import Mathlib

/-!
Shallow embedding of the pension-statement extraction engine
(src/process_pensions.py) and proofs about its claimed properties.

Python floats are modelled as rationals (ℚ); Python strings as Lean
strings, with character-list helpers mirroring the string operations the
source uses.  XML elements are modelled as a labelled tree `Node` with a
tag, optional text and ordered children.
-/

namespace Mislaka

/-! ## Character and string helpers (models of the Python string ops used) -/

/-- Whitespace characters stripped by Python str.strip() / float() for the
ASCII range (space, tab, newline, carriage return, vertical tab, form feed). -/
def isPySpace (c : Char) : Bool :=
  c = ' ' || c = '\t' || c = '\n' || c = '\r' || c = Char.ofNat 0x0b || c = Char.ofNat 0x0c

/-- Strip leading and trailing whitespace from a character list. -/
def trimChars (cs : List Char) : List Char :=
  ((cs.dropWhile isPySpace).reverse.dropWhile isPySpace).reverse

/-- Model of Python str.strip() (ASCII whitespace). -/
def pyStrip (s : String) : String :=
  String.mk (trimChars s.data)

/-- Model of Python s.replace(",", ""). -/
def stripCommas (s : String) : String :=
  String.mk (s.data.filter (fun c => c ≠ ','))

/-- Model of Python str.upper() for the ASCII letters (tags are ASCII). -/
def pyUpper (s : String) : String :=
  String.mk (s.data.map Char.toUpper)

/-- Model of Python str.lower() for the ASCII letters. -/
def pyLower (s : String) : String :=
  String.mk (s.data.map Char.toLower)

/-- Boolean prefix test on character lists. -/
def isPrefixOfB : List Char → List Char → Bool
  | [], _ => true
  | _ :: _, [] => false
  | a :: as, b :: bs => a == b && isPrefixOfB as bs

def hasSubAux (pat : List Char) : List Char → Bool
  | [] => isPrefixOfB pat []
  | c :: rest => isPrefixOfB pat (c :: rest) || hasSubAux pat rest

/-- Model of the Python substring test sub in s. -/
def pyIn (sub s : String) : Bool :=
  hasSubAux sub.data s.data

def splitCharAux (sep : Char) : List Char → List Char → List String
  | [], cur => [String.mk cur.reverse]
  | c :: rest, cur =>
    if c = sep then String.mk cur.reverse :: splitCharAux sep rest []
    else splitCharAux sep rest (c :: cur)

/-- Model of Python s.split(sep) for a one-character separator: splits at
every occurrence, keeping empty segments (so "".split("|") = [""]). -/
def pySplit (sep : Char) (s : String) : List String :=
  splitCharAux sep s.data []

/-- Join a list of strings with a separator, as Python sep.join(values). -/
def joinSep (sep : String) : List String → String
  | [] => ""
  | [s] => s
  | s :: rest => s ++ sep ++ joinSep sep rest

/-- Model of Python any(c.isdigit() for c in s) for ASCII digits. -/
def hasDigit (s : String) : Bool :=
  s.data.any Char.isDigit

/-- Model of Python s.isdigit() for ASCII digits: nonempty and all digits. -/
def pyIsDigit (s : String) : Bool :=
  !s.data.isEmpty && s.data.all Char.isDigit

def digitsToNat (ds : List Char) : Nat :=
  ds.foldl (fun a c => a * 10 + (c.toNat - '0'.toNat)) 0

def pow10 : Nat → Nat
  | 0 => 1
  | n + 1 => 10 * pow10 n

/-- Model of Python float(s) on ordinary decimal notation: optional
surrounding whitespace, optional sign, digits with an optional single
decimal point (at least one digit overall), optional exponent part.
Returns none where Python float() raises ValueError.  Exotic inputs
(inf, nan, underscores, non-ASCII digits) are outside the model; no input
in this development uses them. -/
def pyFloatChars (cs0 : List Char) : Option ℚ :=
  let cs := trimChars cs0
  let neg : Bool := match cs with
    | '-' :: _ => true
    | _ => false
  let cs1 := match cs with
    | '-' :: rest => rest
    | '+' :: rest => rest
    | _ => cs
  let intPart := cs1.takeWhile Char.isDigit
  let cs2 := cs1.dropWhile Char.isDigit
  let fracPart := match cs2 with
    | '.' :: rest => rest.takeWhile Char.isDigit
    | _ => []
  let cs3 := match cs2 with
    | '.' :: rest => rest.dropWhile Char.isDigit
    | _ => cs2
  if intPart.isEmpty && fracPart.isEmpty then none
  else
    let n : Int := Int.ofNat (digitsToNat (intPart ++ fracPart))
    let mantNum : Int := if neg then -n else n
    let mantDen : Nat := pow10 fracPart.length
    match cs3 with
    | [] => some (mkRat mantNum mantDen)
    | e :: rest =>
      if e = 'e' || e = 'E' then
        let eneg : Bool := match rest with
          | '-' :: _ => true
          | _ => false
        let rest1 := match rest with
          | '-' :: r => r
          | '+' :: r => r
          | _ => rest
        let eds := rest1.takeWhile Char.isDigit
        let rest2 := rest1.dropWhile Char.isDigit
        if eds.isEmpty || !rest2.isEmpty then none
        else if eneg then some (mkRat mantNum (mantDen * pow10 (digitsToNat eds)))
        else some (mkRat (mantNum * Int.ofNat (pow10 (digitsToNat eds))) mantDen)
      else none

/-- Model of Python float(s). -/
def pyFloat? (s : String) : Option ℚ :=
  pyFloatChars s.data

/-! ## Document model: a labelled tree with tag, optional text, children.

The source works on xml.etree elements; a mutually inductive node/list
pair keeps all recursion structural (kernel-reducible). -/

mutual
inductive Node where
  | mk (tag : String) (text : Option String) (children : NodeList)
inductive NodeList where
  | nil
  | cons (hd : Node) (tl : NodeList)
end

def Node.tag : Node → String
  | .mk t _ _ => t

def Node.text : Node → Option String
  | .mk _ t _ => t

def NodeList.toList : NodeList → List Node
  | .nil => []
  | .cons n ns => n :: ns.toList

def Node.children : Node → List Node
  | .mk _ _ cs => cs.toList

def ofList : List Node → NodeList
  | [] => .nil
  | n :: ns => .cons n (ofList ns)

/-- Build a node from a tag, optional text and a child list. -/
def node (tag : String) (text : Option String) (cs : List Node) : Node :=
  .mk tag text (ofList cs)

mutual
/-- All proper descendants of a node in document (preorder) order,
as enumerated by ElementTree for a descendant search. -/
def Node.descendants : Node → List Node
  | .mk _ _ cs => cs.descendantsF
def NodeList.descendantsF : NodeList → List Node
  | .nil => []
  | .cons c cs => (c :: c.descendants) ++ cs.descendantsF
end

/-- Model of elem.iter(): the element itself followed by its descendants
in document order. -/
def Node.iterAll (n : Node) : List Node :=
  n :: n.descendants

/-- Model of elem.find(tag) for a plain tag: first direct child with
that tag. -/
def findChild (e : Node) (tag : String) : Option Node :=
  e.children.find? (fun c => c.tag == tag)

/-- Model of elem.findall(".//tag"): all descendants with the tag, in
document order. -/
def findallDesc (e : Node) (tag : String) : List Node :=
  e.descendants.filter (fun c => c.tag == tag)

/-- Model of elem.findall(".//a//b"): for each descendant tagged a in
document order, its descendants tagged b. -/
def findallPath2 (e : Node) (a b : String) : List Node :=
  (findallDesc e a).flatMap (fun n => findallDesc n b)

/-- Model of elem.find(".//a//b"): first match of the path search. -/
def findPath2First (e : Node) (a b : String) : Option Node :=
  (findallPath2 e a b).head?

/-! ## Field resolver (PensionFileProcessor helpers) -/

/-- Model of PensionFileProcessor.get_text: direct-child lookup returning
the stripped text, or the default when the child is missing or its text
is None or empty (Python truthiness on child.text). -/
def get_text (e : Node) (tag : String) (default : String := "") : String :=
  match findChild e tag with
  | none => default
  | some c =>
    match c.text with
    | none => default
    | some t => if t = "" then default else pyStrip t

/-- Model of PensionFileProcessor.get_float: parse the comma-cleaned text
of a direct child; None when the child or text is missing or unparseable. -/
def get_float (e : Node) (tag : String) : Option ℚ :=
  let t := get_text e tag
  if t = "" then none else pyFloat? (stripCommas t)

/-- First nonempty string in the list, else the default; models the
Python chains a or b or ... or default over get_text results. -/
def firstTruthy (l : List String) (default : String) : String :=
  match l.find? (fun s => s ≠ "") with
  | some v => v
  | none => default

/-- Model of PensionFileProcessor.sum_fields: over each matched node, the
first available candidate field value is added; returns (total, count of
nodes that contributed). -/
def sum_fields (nodes : List Node) (fieldCandidates : List String) : ℚ × Nat :=
  nodes.foldl
    (fun acc n =>
      match fieldCandidates.findSome? (fun f => get_float n f) with
      | some v => (acc.1 + v, acc.2 + 1)
      | none => acc)
    (0, 0)

/-- Order-preserving deduplication by exact value, as the seen-set loop at
the end of PensionFileProcessor.collect_tag_values. -/
def dedupAux (seen : List String) : List String → List String
  | [] => []
  | v :: vs =>
    if seen.contains v then dedupAux seen vs
    else v :: dedupAux (v :: seen) vs

def dedup (l : List String) : List String :=
  dedupAux [] l

/-- Stripped nonempty text values of all descendants with the tag, in
document order (the inner findall loop of collect_tag_values). -/
def collectOne (e : Node) (tag : String) : List String :=
  (findallDesc e tag).filterMap (fun n =>
    match n.text with
    | none => none
    | some t => if t = "" then none else
        let s := pyStrip t
        if s = "" then none else some s)

/-- Raw (pre-deduplication) values of collect_tag_values.  The ancestor
walk of the source (start, then parent_map chain up to the root) is
passed in as the chain start :: ancestors. -/
def rawTagValues (chain : List Node) (tag : String) (includeParents : Bool) : List String :=
  if includeParents then (chain.map (fun c => collectOne c tag)).flatten
  else
    match chain with
    | [] => []
    | c :: _ => collectOne c tag

/-- Model of PensionFileProcessor.collect_tag_values. -/
def collect_tag_values (chain : List Node) (tag : String) (includeParents : Bool) : List String :=
  dedup (rawTagValues chain tag includeParents)

/-- Association-list lookup for string-keyed captures (Python dict.get). -/
def lookupStr (l : List (String × String)) (key : String) : Option String :=
  match l.find? (fun p => p.1 == key) with
  | some p => some p.2
  | none => none

/-- Model of PensionFileProcessor.collect_specific_tags: per tag the
collected values joined with " | ", keeping only tags with values. -/
def collect_specific_tags (chain : List Node) (tags : List String)
    (includeParents : Bool) : List (String × String) :=
  tags.filterMap (fun tag =>
    match collect_tag_values chain tag includeParents with
    | [] => none
    | vs => some (tag, joinSep " | " vs))

/-! ## Fixed tables from the module header -/

def MANAGING_COMPANY_TAGS : List String :=
  ["SHEM-METAFEL", "SHEM-YATZRAN", "SHEM_HA_MOSAD", "Provider", "Company",
   "KOD-MEZAHE-METAFEL", "KOD-MEZAHE-YATZRAN", "KOD-YATZRAN", "MEZAHE-YATZRAN"]

def BALANCE_EXPLICIT_TAGS : List String :=
  ["TOTAL-CHISACHON-MTZBR", "TOTAL-ERKEI-PIDION", "YITRAT-KASPEY-TAGMULIM",
   "YITRAT-PITZUIM", "YITRAT-PITZUIM-MAASIK-NOCHECHI",
   "YITRAT-PITZUIM-LEKITZBA-MAAVIDIM-KODMIM",
   "ERECH-PIDION-PITZUIM-MAASIK-NOCHECHI",
   "ERECH-PIDION-PITZUIM-LEKITZBA-MAAVIDIM-KODMIM",
   "TOTAL-HAFKADOT-OVED-TAGMULIM-SHANA-NOCHECHIT",
   "TOTAL-HAFKADOT-MAAVID-TAGMULIM-SHANA-NOCHECHIT",
   "TOTAL-HAFKADOT-PITZUIM-SHANA-NOCHECHIT",
   "SCHUM-HAFKADA-SHESHULAM", "SCHUM-TAGMULIM", "SCHUM-PITURIM"]

def BALANCE_KEYWORDS : List String :=
  ["TAGMUL", "PITZ", "PITZU", "PITZUI"]

/-- Payer role ('employee' / 'employer' in the source). -/
inductive Role where
  | employee
  | employer
deriving DecidableEq

/-- Regulatory period bucket. -/
inductive Period where
  | before2000
  | after2000
  | after2008NonPaying
deriving DecidableEq

def TAGMUL_PERIOD_COLUMNS : List ((Role × Period) × String) :=
  [((.employee, .before2000), "תגמולי עובד עד 2000"),
   ((.employee, .after2000), "תגמולי עובד אחרי 2000"),
   ((.employee, .after2008NonPaying), "תגמולי עובד אחרי 2008 (קצבה לא משלמת)"),
   ((.employer, .before2000), "תגמולי מעביד עד 2000"),
   ((.employer, .after2000), "תגמולי מעביד אחרי 2000"),
   ((.employer, .after2008NonPaying), "תגמולי מעביד אחרי 2008 (קצבה לא משלמת)")]

def TECHULAT_CODE_PERIOD : List (String × Period) :=
  [("1", .before2000), ("2", .after2000), ("7", .after2008NonPaying),
   ("9", .after2008NonPaying), ("13", .after2008NonPaying)]

def PRODUCT_TYPE_MAP : List (String × String) :=
  [("1", "פוליסת ביטוח חיים משולב חיסכון"),
   ("2", "פוליסת ביטוח חיים"),
   ("3", "קופת גמל"),
   ("4", "קרן פנסיה"),
   ("5", "פוליסת חיסכון טהור")]

def SEVERANCE_COLUMN_TAGS : List (String × List String) :=
  [("פיצויים מעסקי נוכחי",
    ["ERECH-PIDION-PITZUIM-MAASIK-NOCHECHI", "YITRAT-PITZUIM-MAASIK-NOCHECHI"]),
   ("פיצויים לאחר התחשבנות",
    ["ERECH-PIDION-PITZUIM-LEKITZBA-MAAVIDIM-KODMIM"]),
   ("פיצויים שלא עברו התחשבנות",
    ["TZVIRAT-PITZUIM-PTURIM-MAAVIDIM-KODMIM", "YITRAT-PITZUIM-LELO-HITCHASHBENOT"]),
   ("פיצויים ממעסיקים קודמים ברצף זכויות",
    ["TZVIRAT-PITZUIM-MAAVIDIM-KODMIM-BERETZEF-ZECHUYOT"]),
   ("פיצויים ממעסיקים קודמים ברצף קצבה",
    ["TZVIRAT-PITZUIM-MAAVIDIM-KODMIM-BERETZEF-KITZBA"])]

def TAGMUL_ROLE_BY_REKIV : List (String × Role) :=
  [("2", .employee), ("3", .employer), ("8", .employee), ("9", .employer)]

def EMPLOYEE_SUG_CODES : List String := ["2", "4", "8", "10"]

def EMPLOYER_SUG_CODES : List String := ["3", "7", "9", "11"]

def BALANCE_TOLERANCE : ℚ := mkRat 1 2

def NUMERIC_SENTINELS : List String := ["", "0", "0.0", "0.00", "NIL", "None", "none"]

/-! ## Balance resolver (PensionFileProcessor.find_balance) -/

/-- Tier-1 nodes: account.findall(".//BlockItrot//PerutYitrot"). -/
def yitrotNodes (acc : Node) : List Node :=
  findallPath2 acc "BlockItrot" "PerutYitrot"

/-- Tier-2 nodes: account.findall(".//PerutMasluleiHashkaa"). -/
def maslulNodes (acc : Node) : List Node :=
  findallDesc acc "PerutMasluleiHashkaa"

/-- Tier-3 nodes: account.findall(".//PerutYitrotLesofShanaKodemet"). -/
def endYearNodes (acc : Node) : List Node :=
  findallDesc acc "PerutYitrotLesofShanaKodemet"

def tier1Sum (acc : Node) : ℚ × Nat :=
  sum_fields (yitrotNodes acc) ["TOTAL-CHISACHON-MTZBR", "TOTAL-ERKEI-PIDION"]

def tier2Sum (acc : Node) : ℚ × Nat :=
  sum_fields (maslulNodes acc) ["SCHUM-TZVIRA-BAMASLUL", "TOTAL-CHISACHON-MTZBR"]

def tier3Sum (acc : Node) : ℚ × Nat :=
  sum_fields (endYearNodes acc) ["YITRAT-SOF-SHANA", "TOTAL-CHISACHON-MTZBR"]

/-- Tier-4 field list of find_balance (generic point lookups). -/
def GENERIC_BALANCE_FIELDS : List String :=
  ["SCHUM-TZVIRA-BAMASLUL", "YITRAT-KASPEY-TAGMULIM", "TOTAL-CHISACHON-MTZBR",
   "TOTAL-ERKEI-PIDION", "SCHUM-HON-EFSHAR", "SCHUM-CHISACHON", "SCHUM-TAGMULIM",
   "SCHUM-PITURIM", "ERECH-PIDION-PITZUIM-LEKITZBA-MAAVIDIM-KODMIM",
   "ERECH-PIDION-PITZUIM-MAASIK-NOCHECHI"]

/-- Tier-4 lookup: first generic field directly under the account whose
parsed value is strictly positive. -/
def tier4Value (acc : Node) : Option ℚ :=
  GENERIC_BALANCE_FIELDS.findSome? (fun f =>
    match get_float acc f with
    | some v => if 0 < v then some v else none
    | none => none)

/-- Weight assigned to a tier-5 candidate: 2 when the uppercased tag
contains a balance-indicating substring, else 1. -/
def tier5Weight (tag : String) : ℚ :=
  let tagU := pyUpper tag
  if pyIn "SCHUM" tagU || pyIn "YITRAT" tagU || pyIn "ERECH" tagU then 2 else 1

/-- Tier-5 candidates (weight, value): every element under the account
(itself included, as elem.iter()) whose text contains a digit and parses,
after comma removal, to a strictly positive number. -/
def tier5Candidates (acc : Node) : List (ℚ × ℚ) :=
  acc.iterAll.filterMap (fun e =>
    match e.text with
    | none => none
    | some t =>
      if hasDigit t then
        match pyFloat? (stripCommas t) with
        | some v => if 0 < v then some (tier5Weight e.tag, v) else none
        | none => none
      else none)

/-- The sort key order of find_balance tier 5: candidates sorted by
(-weight, -value), i.e. a comes strictly before b when a has larger
weight, or equal weight and larger value. -/
def candBefore (a b : ℚ × ℚ) : Bool :=
  (b.1 < a.1) || (a.1 == b.1 && b.2 < a.2)

/-- Stable insertion into a sorted candidate list (keeps earlier-seen
candidates before later ones with an equal key, as Python list.sort). -/
def insertCand (x : ℚ × ℚ) : List (ℚ × ℚ) → List (ℚ × ℚ)
  | [] => [x]
  | y :: ys => if candBefore y x then y :: insertCand x ys else x :: y :: ys

/-- Stable sort by the tier-5 key, modelling potential_balances.sort. -/
def sortCands : List (ℚ × ℚ) → List (ℚ × ℚ)
  | [] => []
  | x :: xs => insertCand x (sortCands xs)

/-- Tier 5 of find_balance: the value of the top-sorted candidate, or 0.0
when nothing parses. -/
def tier5Value (acc : Node) : ℚ :=
  match sortCands (tier5Candidates acc) with
  | [] => 0
  | c :: _ => c.2

/-- Tiers 4 and 5 of find_balance. -/
def find_balance_from4 (acc : Node) : ℚ :=
  match tier4Value acc with
  | some v => v
  | none => tier5Value acc

/-- Tiers 3-5 of find_balance. -/
def find_balance_from3 (acc : Node) : ℚ :=
  let p := tier3Sum acc
  if 0 < p.2 ∧ BALANCE_TOLERANCE < p.1 then p.1
  else if 0 < p.2 ∧ |p.1| ≤ BALANCE_TOLERANCE then 0
  else find_balance_from4 acc

/-- Tiers 2-5 of find_balance. -/
def find_balance_from2 (acc : Node) : ℚ :=
  let p := tier2Sum acc
  if 0 < p.2 ∧ BALANCE_TOLERANCE < p.1 then p.1
  else if 0 < p.2 ∧ |p.1| ≤ BALANCE_TOLERANCE then 0
  else find_balance_from3 acc

/-- Model of PensionFileProcessor.find_balance: the five-tier fallback.
Each of tiers 1-3 returns its total when that total exceeds the
tolerance, returns 0.0 when the total is within tolerance of zero, and
otherwise (total below -tolerance, or no matching node) falls through. -/
def find_balance (acc : Node) : ℚ :=
  let p := tier1Sum acc
  if 0 < p.2 ∧ BALANCE_TOLERANCE < p.1 then p.1
  else if 0 < p.2 ∧ |p.1| ≤ BALANCE_TOLERANCE then 0
  else find_balance_from2 acc

/-! ## Contribution (tagmul) bucketing (collect_tagmul_periods) -/

def tagmulInit : ((Role × Period) → ℚ) × (Role → Bool) :=
  (fun _ => 0, fun _ => false)

/-- One step of the primary pass over a PerutYitraLeTkufa node: read the
role code, period code and amount; skip the node when the amount does not
parse or either code is unmapped; otherwise mark the role as having
period data and accumulate into the (role, period) bucket. -/
def tagmulStep (st : ((Role × Period) → ℚ) × (Role → Bool)) (n : Node) :
    ((Role × Period) → ℚ) × (Role → Bool) :=
  let rekiv := get_text n "REKIV-ITRA-LETKUFA"
  let techulat := get_text n "KOD-TECHULAT-SHICHVA"
  match get_float n "SACH-ITRA-LESHICHVA-BESHACH" with
  | none => st
  | some amount =>
    match TAGMUL_ROLE_BY_REKIV.lookup rekiv with
    | none => st
    | some role =>
      match TECHULAT_CODE_PERIOD.lookup techulat with
      | none => st
      | some periodKey =>
        (fun k => if k = (role, periodKey) then st.1 k + amount else st.1 k,
         fun r => if r = role then true else st.2 r)

/-- The per-period detail nodes of the primary pass:
account.findall(".//BlockItrot//PerutYitraLeTkufa"). -/
def tkufaNodes (acc : Node) : List Node :=
  findallPath2 acc "BlockItrot" "PerutYitraLeTkufa"

/-- Primary pass of collect_tagmul_periods: bucket grid and per-role
has-period-data flags. -/
def tagmulPrimary (acc : Node) : ((Role × Period) → ℚ) × (Role → Bool) :=
  (tkufaNodes acc).foldl tagmulStep tagmulInit

def sugCodesOf : Role → List String
  | .employee => EMPLOYEE_SUG_CODES
  | .employer => EMPLOYER_SUG_CODES

/-- One step of the secondary pass over a PerutYitrot node: recover an
amount into the after-2000 bucket of a role that has no primary-pass
data, keyed by the contribution-type code sets. -/
def tagmulFallbackStep (has : Role → Bool) (tot : (Role × Period) → ℚ) (n : Node) :
    (Role × Period) → ℚ :=
  let sug := get_text n "KOD-SUG-HAFRASHA"
  match get_float n "TOTAL-CHISACHON-MTZBR" with
  | none => tot
  | some amount =>
    if sug = "" then tot
    else if !has .employee && EMPLOYEE_SUG_CODES.contains sug then
      fun k => if k = (Role.employee, Period.after2000) then tot k + amount else tot k
    else if !has .employer && EMPLOYER_SUG_CODES.contains sug then
      fun k => if k = (Role.employer, Period.after2000) then tot k + amount else tot k
    else tot

/-- Bucket grid after both passes of collect_tagmul_periods; the
secondary pass runs only when some role has no primary-pass data. -/
def tagmulTotals (acc : Node) : (Role × Period) → ℚ :=
  let p := tagmulPrimary acc
  if p.2 .employee && p.2 .employer then p.1
  else (yitrotNodes acc).foldl (tagmulFallbackStep p.2) p.1

/-- Model of PensionFileProcessor.collect_tagmul_periods: the emitted
column-name/total mapping, keeping only buckets with a truthy (nonzero)
total, in the fixed column order. -/
def collect_tagmul_periods (acc : Node) : List (String × ℚ) :=
  TAGMUL_PERIOD_COLUMNS.filterMap (fun kc =>
    let t := tagmulTotals acc kc.1
    if t ≠ 0 then some (kc.2, t) else none)

/-! ## Balance-related raw field capture (collect_balance_related_fields) -/

/-- The (tag, stripped text) pairs captured while iterating the account
subtree: elements with nonempty stripped text whose tag is in the
explicit list or whose uppercased tag contains a balance keyword. -/
def balanceRelatedPairs (acc : Node) : List (String × String) :=
  acc.iterAll.filterMap (fun n =>
    match n.text with
    | none => none
    | some t =>
      if pyStrip t = "" then none
      else
        let tagU := pyUpper n.tag
        if BALANCE_EXPLICIT_TAGS.contains n.tag
            || BALANCE_KEYWORDS.any (fun k => pyIn k tagU) then
          some (n.tag, pyStrip t)
        else none)

/-- Model of PensionFileProcessor.collect_balance_related_fields: group
the captured pairs by tag (first-seen tag order), deduplicate each tag's
values preserving order, and join them with " | ". -/
def collect_balance_related_fields (acc : Node) : List (String × String) :=
  let pairs := balanceRelatedPairs acc
  (dedup (pairs.map Prod.fst)).map (fun tag =>
    (tag, joinSep " | " (dedup (pairs.filterMap (fun p =>
      if p.1 = tag then some p.2 else none)))))

/-! ## Severance decomposition (safe_sum_values / extract_severance_components) -/

/-- The string branch of PensionFileProcessor.safe_sum_values: split on
the pipe, strip each segment and drop empty ones, skip sentinel and
unparseable segments, sum the rest. -/
def safe_sum_values (s : String) : ℚ :=
  let parts := ((pySplit '|' s).map pyStrip).filter (fun p => p ≠ "")
  parts.foldl
    (fun total part =>
      let normalized := stripCommas part
      if NUMERIC_SENTINELS.contains normalized then total
      else
        match pyFloat? normalized with
        | some v => total + v
        | none => total)
    0

/-- safe_sum_values on an optional captured value (the None branch of the
source returns 0.0; the int/float/list branches are dead at this call
site because balance-field captures are strings). -/
def safeSumOpt : Option String → ℚ
  | none => 0
  | some s => safe_sum_values s

/-- Model of PensionFileProcessor.extract_severance_components: per fixed
category, the sum of safe_sum_values over its constituent captured tags;
a category is kept only when its total is truthy (nonzero).  An empty
capture map short-circuits to the empty result. -/
def extract_severance_components (balanceFields : List (String × String)) :
    List (String × ℚ) :=
  if balanceFields.isEmpty then []
  else
    SEVERANCE_COLUMN_TAGS.filterMap (fun ct =>
      let total := (ct.2.map (fun tag => safeSumOpt (lookupStr balanceFields tag))).sum
      if total ≠ 0 then some (ct.1, total) else none)

/-! ## Product-type classifier (get_product_type) -/

/-- The keyword rules of the name-based classification, applied to one
plan name in the source's order; none when no rule matches. -/
def nameRule (name : String) : Option String :=
  let nameLower := pyLower name
  if pyIn "גמל להשקעה" name || pyIn "קופת גמל להשקעה" name then some "גמל להשקעה"
  else if pyIn "השתלמות" name then some "קרן השתלמות"
  else if pyIn "פנסיה" name || pyIn "מקפת" name || pyIn "עתודות" name then some "קרן פנסיה"
  else if pyIn "גמל" name then some "קופת גמל"
  else if pyIn "ביטוח" name && (pyIn "חיים" name || pyIn "מנהלים" name || pyIn "מנהל" name) then
    if pyIn "מקפת" name || pyIn "פנסיה" name then some "קרן פנסיה"
    else some "פוליסת ביטוח חיים"
  else if pyIn "חיסכון" name || pyIn "savings" nameLower then some "פוליסת חיסכון טהור"
  else none

/-- Plan names gathered for the classifier: values of the three plan-name
tags collected with ancestor inclusion, re-stripped and kept nonempty. -/
def planNamesOf (chain : List Node) : List String :=
  ((["SHEM-TOCHNIT", "TOCHNIT", "SHEM_TOCHNIT"].map
      (fun tag => collect_tag_values chain tag true)).flatten).filterMap
    (fun name => let normalized := pyStrip name
                 if normalized = "" then none else some normalized)

/-- Name-based classification: the first rule label produced by the first
plan name matching any rule. -/
def nameTypeOf (chain : List Node) : Option String :=
  (planNamesOf chain).findSome? nameRule

/-- Product-type codes gathered for the classifier, falling back to a
direct-child lookup when the ancestor collection is empty. -/
def codesOf (chain : List Node) : List String :=
  match collect_tag_values chain "SUG-MUTZAR" true with
  | [] =>
    match chain with
    | [] => []
    | acct :: _ => let c := get_text acct "SUG-MUTZAR"
                   if c = "" then [] else [c]
  | cs => cs

/-- Code-based classification: the first collected code present in the
fixed code-to-label table. -/
def codeTypeOf (chain : List Node) : Option String :=
  (codesOf chain).findSome? (fun code =>
    let normalized := pyStrip code
    if normalized = "" then none else PRODUCT_TYPE_MAP.lookup normalized)

/-- The three insurance/savings-policy labels of the merge rule. -/
def INSURANCE_LABELS : List String :=
  ["פוליסת ביטוח חיים משולב חיסכון", "פוליסת ביטוח חיים", "פוליסת חיסכון טהור"]

/-- The name-based labels that override an insurance/savings code label. -/
def NAME_OVERRIDE_LABELS : List String := ["קרן פנסיה", "קרן השתלמות"]

/-- Model of PensionFileProcessor.get_product_type on the account's
ancestor chain (account :: ancestors): merge the name-based and
code-based classifications, with the raw-name and raw-code fallbacks. -/
def get_product_type (chain : List Node) : String :=
  match codeTypeOf chain, nameTypeOf chain with
  | some codeType, some nameType =>
    if codeType = nameType then codeType
    else if INSURANCE_LABELS.contains codeType then
      if NAME_OVERRIDE_LABELS.contains nameType then nameType else codeType
    else nameType
  | none, some nameType => nameType
  | some codeType, none => codeType
  | none, none =>
    match planNamesOf chain with
    | n :: _ => n
    | [] =>
      match (codesOf chain).findSome? (fun code =>
          let normalized := pyStrip code
          if normalized = "" then none else some normalized) with
      | some c => c
      | none => ""

/-! ## Dates and per-account record assembly (extract_data body) -/

/-- Model of PensionFileProcessor.format_date. -/
def format_date (value : String) : String :=
  if value = "" then ""
  else
    let v := pyStrip value
    if pyIsDigit v then
      if v.data.length = 8 then
        String.mk (v.data.take 4) ++ "-" ++ String.mk ((v.data.drop 4).take 2)
          ++ "-" ++ String.mk (v.data.drop 6)
      else if v.data.length = 6 then
        String.mk (v.data.take 4) ++ "-" ++ String.mk (v.data.drop 4)
      else v
    else v

/-- Model of PensionFileProcessor.get_balance_date. -/
def get_balance_date (acc : Node) : String :=
  match ["TAARICH-NECHONUT", "TAARICH-ERECH-TZVIROT", "TAARICH-ERECH",
         "TAARICH-MADAD", "TAARICH-ERECH-HAFKADA"].findSome? (fun f =>
      let v := get_text acc f
      if v = "" then none else some (format_date v)) with
  | some d => d
  | none =>
    match findPath2First acc "BlockItrot" "TAARICH-ERECH-TZVIROT" with
    | some n =>
      match n.text with
      | some t => if t = "" then "" else format_date t
      | none => ""
    | none => ""

/-- Model of PensionFileProcessor.get_start_date. -/
def get_start_date (acc : Node) : String :=
  let v := get_text acc "TAARICH-HITZTARFUT-RISHON"
  if v = "" then "" else format_date v

/-- Model of PensionFileProcessor.get_managing_company (name and code). -/
def get_managing_company (chain : List Node) (fallbackName : String) : String × String :=
  let nameTags := ["SHEM-METAFEL", "SHEM-YATZRAN", "SHEM_HA_MOSAD", "Provider", "Company"]
  let codeTags := ["KOD-MEZAHE-METAFEL", "KOD-MEZAHE-YATZRAN", "KOD-YATZRAN", "MEZAHE-YATZRAN"]
  let name := match nameTags.findSome? (fun tag =>
      match collect_tag_values chain tag true with
      | [] => none
      | v :: _ => some v) with
    | some v => v
    | none => if fallbackName = "" then "לא ידוע" else fallbackName
  let code := match codeTags.findSome? (fun tag =>
      match collect_tag_values chain tag true with
      | [] => none
      | v :: _ => some v) with
    | some v => v
    | none => "לא ידוע"
  (name, code)

/-- One extracted account record (the fields of acc_data assembled in
extract_data that the verified claims are about). -/
structure AccData where
  accNumber : String
  company : String
  plan : String
  managingCompanyOut : String
  managingCompanyCode : String
  balance : ℚ
  balanceDateOut : String
  startDate : String
  productType : String
  tagmulPeriods : List (String × ℚ)
  severanceComponents : List (String × ℚ)
  tagmulTotal : ℚ
  severanceTotal : ℚ
  componentTotal : ℚ
  balanceDiff : ℚ

/-- Model of the per-account body of PensionFileProcessor.extract_data:
the record built for one located account subtree, whose ancestor chain
(nearest first) is passed alongside for the upward-collecting lookups. -/
def extract_account (acct : Node) (ancestors : List Node) : AccData :=
  let chain := acct :: ancestors
  let accNumber := firstTruthy
    [get_text acct "MISPAR-POLISA-O-HESHBON", get_text acct "MISPAR-HESHBON",
     get_text acct "MISPAR-POLISA", get_text acct "AccountNumber",
     get_text acct "AccountId", get_text acct "PolicyNumber"] "לא ידוע"
  let company := firstTruthy
    [get_text acct "SHEM-YATZRAN", get_text acct "YATZRAN",
     get_text acct "SHEM_HA_MOSAD", get_text acct "Company",
     get_text acct "Provider"] "לא ידוע"
  let plan := firstTruthy
    [get_text acct "SHEM-TOCHNIT", get_text acct "TOCHNIT",
     get_text acct "SHEM_TOCHNIT"] "לא ידוע"
  let balance := find_balance acct
  let balanceDate := get_balance_date acct
  let managing := get_managing_company chain company
  let managingFields := collect_specific_tags chain MANAGING_COMPANY_TAGS true
  let balanceRelated := collect_balance_related_fields acct
  let tagmulPeriods := collect_tagmul_periods acct
  let severance := extract_severance_components balanceRelated
  let tagmulTotal := (tagmulPeriods.map Prod.snd).sum
  let severanceTotal := (severance.map Prod.snd).sum
  let componentTotal := tagmulTotal + severanceTotal
  let diff0 := balance - componentTotal
  let balanceDiff := if |diff0| ≤ BALANCE_TOLERANCE then 0 else diff0
  { accNumber := accNumber
    company := company
    plan := plan
    managingCompanyOut :=
      match lookupStr managingFields "SHEM-YATZRAN" with
      | some v => v
      | none => managing.1
    managingCompanyCode := managing.2
    balance := balance
    balanceDateOut := if balanceDate = "" then "לא ידוע" else balanceDate
    startDate := get_start_date acct
    productType := get_product_type chain
    tagmulPeriods := tagmulPeriods
    severanceComponents := severance
    tagmulTotal := tagmulTotal
    severanceTotal := severanceTotal
    componentTotal := componentTotal
    balanceDiff := balanceDiff }

/-! ## Specification-side characterizations (used to state the claims) -/

/-- The contribution a single per-period detail node makes to the
(role, period) bucket of the primary pass, by the specification: its
amount when the amount parses and both codes map to that bucket,
nothing otherwise. -/
def primContrib (k : Role × Period) (n : Node) : Option ℚ :=
  match get_float n "SACH-ITRA-LESHICHVA-BESHACH" with
  | none => none
  | some amount =>
    match TAGMUL_ROLE_BY_REKIV.lookup (get_text n "REKIV-ITRA-LETKUFA") with
    | none => none
    | some role =>
      match TECHULAT_CODE_PERIOD.lookup (get_text n "KOD-TECHULAT-SHICHVA") with
      | none => none
      | some periodKey => if (role, periodKey) = k then some amount else none

/-- The contribution a single per-track balance node makes to a role in
the secondary pass, by the specification: its amount when the amount
parses and the contribution-type code belongs to that role's code set. -/
def fallbackContrib (r : Role) (n : Node) : Option ℚ :=
  match get_float n "TOTAL-CHISACHON-MTZBR" with
  | none => none
  | some amount =>
    if (sugCodesOf r).contains (get_text n "KOD-SUG-HAFRASHA") then some amount
    else none

/-- The value a single pipe-separated segment contributes to
safe_sum_values, by the specification: zero for blank, sentinel or
unparseable segments, the parsed value otherwise. -/
def segValue (part : String) : ℚ :=
  let t := pyStrip part
  if t = "" then 0
  else
    let normalized := stripCommas t
    if NUMERIC_SENTINELS.contains normalized then 0
    else
      match pyFloat? normalized with
      | some v => v
      | none => 0

/-! ## Concrete input documents used by counterexamples and witnesses -/

/-- Account with one tier-1 track-summary node whose total (-10) is below
the negative tolerance, plus a tier-4 generic balance field of 5000. -/
def tier1NegAccount : Node :=
  node "HeshbonOPolisa" none
    [node "BlockItrot" none
      [node "PerutYitrot" none [node "TOTAL-CHISACHON-MTZBR" (some "-10") []]],
     node "SCHUM-TAGMULIM" (some "5000") []]

/-- Account with one tier-1 track-summary node of total 1000 plus a
tier-4 generic balance field of 5000. -/
def tier1PosAccount : Node :=
  node "HeshbonOPolisa" none
    [node "BlockItrot" none
      [node "PerutYitrot" none [node "TOTAL-CHISACHON-MTZBR" (some "1000") []]],
     node "SCHUM-TAGMULIM" (some "5000") []]

/-- Account with product-type code "4" (pension-fund label) and a plan
name that classifies as life-insurance by keywords. -/
def code4InsuranceNameAccount : Node :=
  node "HeshbonOPolisa" none
    [node "SHEM-TOCHNIT" (some "ביטוח מנהלים") [],
     node "SUG-MUTZAR" (some "4") []]

/-- Account with product-type code "1" (combined life-insurance label)
and a plan name containing the pension keyword. -/
def code1PensionNameAccount : Node :=
  node "HeshbonOPolisa" none
    [node "SHEM-TOCHNIT" (some "קרן פנסיה חדשה") [],
     node "SUG-MUTZAR" (some "1") []]

/-- Account whose only datum is a severance field with a negative raw
value. -/
def negSeveranceAccount : Node :=
  node "HeshbonOPolisa" none
    [node "YITRAT-PITZUIM-MAASIK-NOCHECHI" (some "-100") []]

/-- Account with one primary-pass detail node: role code "3" (employer),
period code "2" (after-2000), amount 500. -/
def employerAfter2000Account : Node :=
  node "HeshbonOPolisa" none
    [node "BlockItrot" none
      [node "PerutYitraLeTkufa" none
        [node "REKIV-ITRA-LETKUFA" (some "3") [],
         node "KOD-TECHULAT-SHICHVA" (some "2") [],
         node "SACH-ITRA-LESHICHVA-BESHACH" (some "500") []]]]

/-- Account with one primary-pass detail node carrying the unmapped role
code "5". -/
def unmappedRoleAccount : Node :=
  node "HeshbonOPolisa" none
    [node "BlockItrot" none
      [node "PerutYitraLeTkufa" none
        [node "REKIV-ITRA-LETKUFA" (some "5") [],
         node "KOD-TECHULAT-SHICHVA" (some "2") [],
         node "SACH-ITRA-LESHICHVA-BESHACH" (some "500") []]]]

/-- A captured balance-field map with one severance tag worth 100. -/
def simpleSeveranceFields : List (String × String) :=
  [("YITRAT-PITZUIM-MAASIK-NOCHECHI", "100")]

/-! ## Theorems -/

attribute [local semireducible] Rat.add Rat.mul Rat.sub Rat.inv Rat.ofScientific

/-! ### Helper lemmas -/

theorem dedupAux_idem (l : List String) :
    ∀ seen, dedupAux seen (dedupAux seen l) = dedupAux seen l := by
  induction l with
  | nil => intro seen; rfl
  | cons v vs ih =>
    intro seen
    by_cases hc : v ∈ seen
    · simp [dedupAux, hc, ih seen]
    · simp [dedupAux, hc, ih (v :: seen)]

theorem tagmulStep_fst (st : ((Role × Period) → ℚ) × (Role → Bool)) (n : Node)
    (k : Role × Period) :
    (tagmulStep st n).1 k = st.1 k + (primContrib k n).getD 0 := by
  cases hf : get_float n "SACH-ITRA-LESHICHVA-BESHACH" with
  | none => simp [tagmulStep, primContrib, hf]
  | some amount =>
    cases hr : TAGMUL_ROLE_BY_REKIV.lookup (get_text n "REKIV-ITRA-LETKUFA") with
    | none => simp [tagmulStep, primContrib, hf, hr]
    | some role =>
      cases hp : TECHULAT_CODE_PERIOD.lookup (get_text n "KOD-TECHULAT-SHICHVA") with
      | none => simp [tagmulStep, primContrib, hf, hr, hp]
      | some periodKey =>
        by_cases hk : k = (role, periodKey)
        · simp [tagmulStep, primContrib, hf, hr, hp, hk]
        · simp [tagmulStep, primContrib, hf, hr, hp, hk, Ne.symm hk]

theorem foldl_tagmulStep (nodes : List Node) :
    ∀ (st : ((Role × Period) → ℚ) × (Role → Bool)) (k : Role × Period),
      ((nodes.foldl tagmulStep st).1 k) = st.1 k + ((nodes.filterMap (primContrib k)).sum) := by
  induction nodes with
  | nil => intro st k; simp
  | cons n ns ih =>
    intro st k
    rw [List.foldl_cons, ih, tagmulStep_fst]
    cases h : primContrib k n with
    | none => simp [List.filterMap_cons, h]
    | some a => simp [List.filterMap_cons, h]; ring

theorem sug_codes_disjoint (s : String) (h1 : s ∈ EMPLOYEE_SUG_CODES)
    (h2 : s ∈ EMPLOYER_SUG_CODES) : False := by
  simp only [EMPLOYEE_SUG_CODES, List.mem_cons, List.not_mem_nil, or_false] at h1
  rcases h1 with h | h | h | h <;> subst h <;> exact absurd h2 (by decide)

theorem fallbackStep_apply (has : Role → Bool) (tot : (Role × Period) → ℚ) (n : Node)
    (r : Role) (p : Period) :
    tagmulFallbackStep has tot n (r, p) =
      tot (r, p) +
        (if p = Period.after2000 ∧ has r = false then (fallbackContrib r n).getD 0 else 0) := by
  cases hf : get_float n "TOTAL-CHISACHON-MTZBR" with
  | none => simp [tagmulFallbackStep, fallbackContrib, hf]
  | some amount =>
    by_cases hs : get_text n "KOD-SUG-HAFRASHA" = ""
    · cases r <;>
        simp [tagmulFallbackStep, fallbackContrib, hf, hs, sugCodesOf,
          (by decide : ¬("" ∈ EMPLOYEE_SUG_CODES)), (by decide : ¬("" ∈ EMPLOYER_SUG_CODES))]
    · by_cases hme : get_text n "KOD-SUG-HAFRASHA" ∈ EMPLOYEE_SUG_CODES
      · have hnr : get_text n "KOD-SUG-HAFRASHA" ∉ EMPLOYER_SUG_CODES :=
          fun hx => sug_codes_disjoint _ hme hx
        by_cases he1 : has Role.employee = false
        · cases r <;> cases p <;>
            simp [tagmulFallbackStep, fallbackContrib, hf, hs, sugCodesOf, hme, hnr, he1,
              Prod.ext_iff]
        · cases r <;> cases p <;>
            simp [tagmulFallbackStep, fallbackContrib, hf, hs, sugCodesOf, hme, hnr, he1,
              Prod.ext_iff]
      · by_cases hmr : get_text n "KOD-SUG-HAFRASHA" ∈ EMPLOYER_SUG_CODES
        · by_cases hr1 : has Role.employer = false
          · cases r <;> cases p <;>
              simp [tagmulFallbackStep, fallbackContrib, hf, hs, sugCodesOf, hme, hmr, hr1,
                Prod.ext_iff]
          · cases r <;> cases p <;>
              simp [tagmulFallbackStep, fallbackContrib, hf, hs, sugCodesOf, hme, hmr, hr1,
                Prod.ext_iff]
        · cases r <;>
            simp [tagmulFallbackStep, fallbackContrib, hf, hs, sugCodesOf, hme, hmr]

theorem safe_sum_aux (ps : List String) :
    ∀ a : ℚ,
      ((ps.map pyStrip).filter (fun p => p ≠ "")).foldl
          (fun total part =>
            let normalized := stripCommas part
            if NUMERIC_SENTINELS.contains normalized then total
            else
              match pyFloat? normalized with
              | some v => total + v
              | none => total) a
        = a + (ps.map segValue).sum := by
  induction ps with
  | nil => intro a; simp
  | cons p ps ih =>
    intro a
    by_cases hp : pyStrip p = ""
    · simp only [List.map_cons, List.filter_cons]
      rw [if_neg (by simp [hp])]
      rw [ih a]
      simp [segValue, hp]
    · simp only [List.map_cons, List.filter_cons]
      rw [if_pos (by simp [hp])]
      rw [List.foldl_cons, ih]
      by_cases hsent : NUMERIC_SENTINELS.contains (stripCommas (pyStrip p)) = true
      · simp only [List.sum_cons, segValue, hp, hsent]
        simp
      · cases hv : pyFloat? (stripCommas (pyStrip p)) with
        | none => simp only [List.sum_cons, segValue, hp, hsent, hv]; simp
        | some v => simp only [List.sum_cons, segValue, hp, hsent, hv]; simp; ring

theorem safe_sum_values_eq (s : String) :
    safe_sum_values s = ((pySplit '|' s).map segValue).sum := by
  unfold safe_sum_values
  rw [safe_sum_aux]
  simp

theorem severance_components_nonzero (bf : List (String × String)) :
    (extract_severance_components bf).all (fun q => decide (q.2 ≠ 0)) = true := by
  rw [List.all_eq_true]
  intro q hq
  rw [decide_eq_true_eq]
  unfold extract_severance_components at hq
  by_cases hbf : bf.isEmpty
  · simp [hbf] at hq
  · rw [if_neg hbf, List.mem_filterMap] at hq
    obtain ⟨ct, _, hct⟩ := hq
    by_cases ht : ((ct.2.map (fun tag => safeSumOpt (lookupStr bf tag))).sum) ≠ 0
    · rw [if_pos ht] at hct
      cases Option.some.inj hct
      exact ht
    · rw [if_neg ht] at hct
      cases hct

theorem tagmul_periods_nonzero (acc : Node) :
    (collect_tagmul_periods acc).all (fun q => decide (q.2 ≠ 0)) = true := by
  rw [List.all_eq_true]
  intro q hq
  rw [decide_eq_true_eq]
  unfold collect_tagmul_periods at hq
  rw [List.mem_filterMap] at hq
  obtain ⟨kc, _, hkc⟩ := hq
  by_cases ht : tagmulTotals acc kc.1 ≠ 0
  · rw [if_pos ht] at hkc
    cases Option.some.inj hkc
    exact ht
  · rw [if_neg ht] at hkc
    cases hkc

theorem mem_insertCand {x z : ℚ × ℚ} :
    ∀ {l : List (ℚ × ℚ)}, z ∈ insertCand x l → z = x ∨ z ∈ l := by
  intro l
  induction l with
  | nil => intro h; simp only [insertCand] at h; simp at h; exact Or.inl h
  | cons y ys ih =>
    intro h
    rw [insertCand] at h
    split at h
    · rcases List.mem_cons.mp h with h1 | h2
      · exact Or.inr (List.mem_cons.mpr (Or.inl h1))
      · rcases ih h2 with ha | hb
        · exact Or.inl ha
        · exact Or.inr (List.mem_cons.mpr (Or.inr hb))
    · rcases List.mem_cons.mp h with h1 | h2
      · exact Or.inl h1
      · exact Or.inr h2

theorem mem_sortCands {z : ℚ × ℚ} : ∀ {l : List (ℚ × ℚ)}, z ∈ sortCands l → z ∈ l := by
  intro l
  induction l with
  | nil => intro h; exact absurd h (by simp [sortCands])
  | cons x xs ih =>
    intro h
    rw [sortCands] at h
    rcases mem_insertCand h with rfl | h2
    · exact List.mem_cons_self _ _
    · exact List.mem_cons.mpr (Or.inr (ih h2))

theorem tier5Candidates_pos (acc : Node) {c : ℚ × ℚ} (hc : c ∈ tier5Candidates acc) :
    0 < c.2 := by
  rw [tier5Candidates, List.mem_filterMap] at hc
  obtain ⟨e, _, he⟩ := hc
  split at he
  · cases he
  · split at he
    · split at he
      · split at he
        · cases Option.some.inj he
          assumption
        · cases he
      · cases he
    · cases he

theorem tier5Value_nonneg (acc : Node) : 0 ≤ tier5Value acc := by
  cases hs : sortCands (tier5Candidates acc) with
  | nil => simp [tier5Value, hs]
  | cons c l =>
    have hc : c ∈ sortCands (tier5Candidates acc) := by
      rw [hs]; exact List.mem_cons_self _ _
    have hpos := tier5Candidates_pos acc (mem_sortCands hc)
    simp only [tier5Value, hs]
    exact le_of_lt hpos

theorem tier4Value_pos (acc : Node) {v : ℚ} (h : tier4Value acc = some v) : 0 < v := by
  unfold tier4Value at h
  obtain ⟨f, _, hf⟩ := List.exists_of_findSome?_eq_some h
  split at hf
  · split at hf
    · cases Option.some.inj hf
      assumption
    · cases hf
  · cases hf

theorem tolerance_pos : (0 : ℚ) < BALANCE_TOLERANCE := by decide

theorem find_balance_from4_nonneg (acc : Node) : 0 ≤ find_balance_from4 acc := by
  unfold find_balance_from4
  cases h : tier4Value acc with
  | none => exact tier5Value_nonneg acc
  | some v => exact le_of_lt (tier4Value_pos acc h)

theorem find_balance_from3_nonneg (acc : Node) : 0 ≤ find_balance_from3 acc := by
  unfold find_balance_from3
  dsimp only
  split
  · next h => exact le_of_lt (lt_trans tolerance_pos h.2)
  · split
    · exact le_refl 0
    · exact find_balance_from4_nonneg acc

theorem find_balance_from2_nonneg (acc : Node) : 0 ≤ find_balance_from2 acc := by
  unfold find_balance_from2
  dsimp only
  split
  · next h => exact le_of_lt (lt_trans tolerance_pos h.2)
  · split
    · exact le_refl 0
    · exact find_balance_from3_nonneg acc

theorem find_balance_nonneg (acc : Node) : 0 ≤ find_balance acc := by
  unfold find_balance
  dsimp only
  split
  · next h => exact le_of_lt (lt_trans tolerance_pos h.2)
  · split
    · exact le_refl 0
    · exact find_balance_from2_nonneg acc

theorem firstTruthy_ne (l : List String) (d : String) (hd : d ≠ "") :
    firstTruthy l d ≠ "" := by
  unfold firstTruthy
  cases h : l.find? (fun s => s ≠ "") with
  | none => exact hd
  | some v =>
    have hv := List.find?_some h
    exact of_decide_eq_true hv

theorem foldl_fallbackStep (has : Role → Bool) (nodes : List Node) :
    ∀ (tot : (Role × Period) → ℚ) (r : Role) (p : Period),
      (nodes.foldl (tagmulFallbackStep has) tot) (r, p) =
        tot (r, p) +
          (if p = Period.after2000 ∧ has r = false
           then ((nodes.filterMap (fallbackContrib r)).sum) else 0) := by
  induction nodes with
  | nil => intro tot r p; simp
  | cons n ns ih =>
    intro tot r p
    rw [List.foldl_cons, ih, fallbackStep_apply]
    by_cases hc : p = Period.after2000 ∧ has r = false
    · cases h : fallbackContrib r n with
      | none => simp [hc, List.filterMap_cons, h]
      | some a => simp [hc, List.filterMap_cons, h]; ring
    · simp [hc]

theorem ifEmptyDefault_ne (s d : String) (hd : d ≠ "") :
    (if s = "" then d else s) ≠ "" := by
  split
  · exact hd
  · next h => exact h

theorem tierBranch_eq (p : ℚ × Nat) (next : ℚ) :
    (if 0 < p.2 ∧ BALANCE_TOLERANCE < p.1 then p.1
     else if 0 < p.2 ∧ |p.1| ≤ BALANCE_TOLERANCE then 0 else next) =
    (if 0 < p.2 ∧ -BALANCE_TOLERANCE ≤ p.1
     then (if BALANCE_TOLERANCE < p.1 then p.1 else 0)
     else next) := by
  by_cases hc : 0 < p.2
  · by_cases h1 : BALANCE_TOLERANCE < p.1
    · have h2 : -BALANCE_TOLERANCE ≤ p.1 := by linarith [tolerance_pos]
      rw [if_pos ⟨hc, h1⟩, if_pos ⟨hc, h2⟩, if_pos h1]
    · by_cases h2 : -BALANCE_TOLERANCE ≤ p.1
      · have habs : |p.1| ≤ BALANCE_TOLERANCE := abs_le.mpr ⟨h2, le_of_not_lt h1⟩
        rw [if_neg (fun hh => h1 hh.2), if_pos ⟨hc, habs⟩, if_pos ⟨hc, h2⟩, if_neg h1]
      · have habs : ¬(|p.1| ≤ BALANCE_TOLERANCE) := fun hh => h2 (abs_le.mp hh).1
        rw [if_neg (fun hh => h1 hh.2), if_neg (fun hh => habs hh.2),
          if_neg (fun hh => h2 hh.2)]
  · rw [if_neg (fun hh => hc hh.1), if_neg (fun hh => hc hh.1), if_neg (fun hh => hc hh.1)]

/-! ### Claim theorems -/

/-- Claim C1: for every account, the emitted balance discrepancy equals
exactly 0.0 whenever the absolute difference between the resolved balance
and the component total (contribution total plus severance total, with
tolerance 0.5) is at most 0.5, and otherwise equals exactly balance minus
component total. -/
theorem claim1_balance_discrepancy (acct : Node) (ancestors : List Node) :
    (extract_account acct ancestors).componentTotal =
        (extract_account acct ancestors).tagmulTotal +
          (extract_account acct ancestors).severanceTotal
    ∧ BALANCE_TOLERANCE = mkRat 1 2
    ∧ (extract_account acct ancestors).balanceDiff =
        (if |(extract_account acct ancestors).balance -
              (extract_account acct ancestors).componentTotal| ≤ BALANCE_TOLERANCE
         then 0
         else (extract_account acct ancestors).balance -
              (extract_account acct ancestors).componentTotal) :=
  ⟨rfl, rfl, rfl⟩

/-- Claim C2 counterexample: an account whose tier-1 track summary sums
to -10 (one matching sub-node, so by the claim tier 1 should determine
the result) nevertheless resolves to the tier-4 generic field value 5000:
a total below -0.5 falls through, so the first tier with a matching
sub-node does not always determine the result and lower-tier values can
be returned. -/
theorem claim2_counterexample :
    (tier1Sum tier1NegAccount).2 = 1
    ∧ (tier1Sum tier1NegAccount).1 = -10
    ∧ find_balance tier1NegAccount = 5000
    ∧ tier4Value tier1NegAccount = some 5000
    ∧ decide (find_balance tier1NegAccount = (tier1Sum tier1NegAccount).1) = false
    ∧ decide (find_balance tier1NegAccount = 0) = false := by
  decide

/-- Claim C2 (amended): each of tiers 1-3, when it finds at least one
matching sub-node and its total is not below -0.5, determines the result
even when the total is zero - the total is returned when above the
tolerance and otherwise normalized to exactly 0.0 - and otherwise (no
matching sub-node, or a total below -0.5) resolution falls through to
the next tier. -/
theorem claim2_amended_tier_priority (acc : Node) :
    (find_balance acc =
      (if 0 < (tier1Sum acc).2 ∧ -BALANCE_TOLERANCE ≤ (tier1Sum acc).1
       then (if BALANCE_TOLERANCE < (tier1Sum acc).1 then (tier1Sum acc).1 else 0)
       else find_balance_from2 acc))
    ∧ (find_balance_from2 acc =
      (if 0 < (tier2Sum acc).2 ∧ -BALANCE_TOLERANCE ≤ (tier2Sum acc).1
       then (if BALANCE_TOLERANCE < (tier2Sum acc).1 then (tier2Sum acc).1 else 0)
       else find_balance_from3 acc))
    ∧ (find_balance_from3 acc =
      (if 0 < (tier3Sum acc).2 ∧ -BALANCE_TOLERANCE ≤ (tier3Sum acc).1
       then (if BALANCE_TOLERANCE < (tier3Sum acc).1 then (tier3Sum acc).1 else 0)
       else find_balance_from4 acc)) :=
  ⟨tierBranch_eq (tier1Sum acc) (find_balance_from2 acc),
   tierBranch_eq (tier2Sum acc) (find_balance_from3 acc),
   tierBranch_eq (tier3Sum acc) (find_balance_from4 acc)⟩

/-- Witness for the amended C2 at a concrete account: a tier-1 summary
of 1000 wins over a tier-4 generic field of 5000. -/
theorem claim2_amended_tier_priority_witness :
    find_balance tier1PosAccount = 1000 := by
  rw [(claim2_amended_tier_priority tier1PosAccount).1]
  decide

/-- Claim C3 counterexample: code "4" (pension-fund label) together with
a plan name classified as life-insurance returns the name-based
life-insurance label, not the code-based pension-fund label the claim
requires for this disagreement. -/
theorem claim3_counterexample :
    codeTypeOf [code4InsuranceNameAccount] = some "קרן פנסיה"
    ∧ nameTypeOf [code4InsuranceNameAccount] = some "פוליסת ביטוח חיים"
    ∧ get_product_type [code4InsuranceNameAccount] = "פוליסת ביטוח חיים"
    ∧ decide (get_product_type [code4InsuranceNameAccount] = "קרן פנסיה") = false := by
  decide

/-- Claim C3 (amended): when both classifications resolve and disagree,
the code-based label is returned only when it is one of the three
insurance/savings-policy labels and the name-based label is not
pension-fund or study-fund; in every other disagreement (in particular
whenever the code-based label is not an insurance/savings label) the
name-based label is returned. -/
theorem claim3_amended_merge (chain : List Node) (ct nt : String)
    (hct : codeTypeOf chain = some ct) (hnt : nameTypeOf chain = some nt)
    (hne : ct ≠ nt) :
    get_product_type chain =
      (if INSURANCE_LABELS.contains ct then
        (if NAME_OVERRIDE_LABELS.contains nt then nt else ct)
       else nt) := by
  unfold get_product_type
  rw [hct, hnt]
  dsimp only
  rw [if_neg hne]

/-- Witness for the amended C3 at a concrete account: code "1" (combined
life-insurance label) with a pension plan name returns the name-based
pension-fund label. -/
theorem claim3_amended_merge_witness :
    get_product_type [code1PensionNameAccount] = "קרן פנסיה" := by
  have h := claim3_amended_merge [code1PensionNameAccount]
    "פוליסת ביטוח חיים משולב חיסכון" "קרן פנסיה" (by decide) (by decide) (by decide)
  rw [h]
  decide

/-- Claim C5: in the primary contribution-bucketing pass, every bucket
total equals the sum of the amounts of exactly those per-period detail
nodes whose amount parses and whose role and period codes map to that
bucket; a node with an unmapped role or period code contributes to no
bucket.  Concretely, role "3" / period "2" / amount 500 yields bucket
(employer, after-2000) = 500, and an unmapped role code "5" leaves every
bucket at zero. -/
theorem claim5_primary_bucketing :
    (∀ (acc : Node) (k : Role × Period),
        (tagmulPrimary acc).1 k = ((tkufaNodes acc).filterMap (primContrib k)).sum)
    ∧ (tagmulPrimary employerAfter2000Account).1 (Role.employer, Period.after2000) = 500
    ∧ (TAGMUL_PERIOD_COLUMNS.all fun kc =>
        decide ((tagmulPrimary unmappedRoleAccount).1 kc.1 = 0)) = true := by
  refine ⟨?_, by decide, by decide⟩
  intro acc k
  unfold tagmulPrimary
  rw [foldl_tagmulStep]
  simp [tagmulInit]

/-- Claim C6: the secondary contribution pass changes no bucket other
than the after-2000 bucket of a role with no primary-pass data, into
which it adds exactly the amounts recovered through that role's
contribution-type code set; the two code sets are disjoint. -/
theorem claim6_fallback_bucketing :
    (∀ (acc : Node) (r : Role) (p : Period),
        tagmulTotals acc (r, p) =
          (tagmulPrimary acc).1 (r, p) +
            (if p = Period.after2000 ∧ (tagmulPrimary acc).2 r = false
             then ((yitrotNodes acc).filterMap (fallbackContrib r)).sum else 0))
    ∧ EMPLOYEE_SUG_CODES.inter EMPLOYER_SUG_CODES = [] := by
  constructor
  · intro acc r p
    unfold tagmulTotals
    by_cases hb : ((tagmulPrimary acc).2 Role.employee && (tagmulPrimary acc).2 Role.employer) = true
    · rw [if_pos hb]
      rw [Bool.and_eq_true] at hb
      have hr : (tagmulPrimary acc).2 r = true := by
        cases r
        · exact hb.1
        · exact hb.2
      simp [hr]
    · rw [if_neg hb]
      rw [foldl_fallbackStep]
  · decide

/-- Claim C7: severance raw values are split on the pipe delimiter and
each segment parsed independently, blank, sentinel ("", "0", "NIL",
"None", ...) and non-numeric segments contributing 0 (so "100|NIL|250"
sums to 350.0 and "" to 0.0); a category appears in the output mapping
only if its summed total is nonzero. -/
theorem claim7_severance_parsing :
    (∀ s : String, safe_sum_values s = ((pySplit '|' s).map segValue).sum)
    ∧ safe_sum_values "100|NIL|250" = 350
    ∧ safe_sum_values "" = 0
    ∧ (∀ bf : List (String × String),
        (extract_severance_components bf).all (fun q => decide (q.2 ≠ 0)) = true) :=
  ⟨safe_sum_values_eq, by decide, by decide, severance_components_nonzero⟩

/-- Claim C8: the value collector deduplicates by exact value while
preserving order of first occurrence (values [A, B, A, C] yield
[A, B, C]) and the deduplication is idempotent. -/
theorem claim8_collector_dedup :
    (∀ (chain : List Node) (tag : String) (includeParents : Bool),
        collect_tag_values chain tag includeParents =
          dedup (rawTagValues chain tag includeParents))
    ∧ (∀ l : List String, dedup (dedup l) = dedup l)
    ∧ (∀ a b c : String, a ≠ b → a ≠ c → b ≠ c → dedup [a, b, a, c] = [a, b, c]) := by
  refine ⟨fun _ _ _ => rfl, fun l => dedupAux_idem l [], ?_⟩
  intro a b c hab hac hbc
  simp [dedup, dedupAux, hab, hac, hbc, Ne.symm hab, Ne.symm hac, Ne.symm hbc]

/-- Witness for C8 at concrete distinct values. -/
theorem claim8_collector_dedup_witness :
    dedup ["A", "B", "A", "C"] = ["A", "B", "C"] :=
  claim8_collector_dedup.2.2 "A" "B" "C" (by decide) (by decide) (by decide)

/-- Claim C9 counterexample: an account whose only captured field is a
severance tag with raw value "-100" produces an emitted severance
category amount of -100, a negative present numeric field, refuting the
claimed non-negativity invariant; on the same account the start-date and
product-type fields default to the empty string, not the unknown
sentinel, refuting the claimed sentinel default for every categorical
field. -/
theorem claim9_counterexample :
    (extract_account negSeveranceAccount []).severanceComponents =
        [("פיצויים מעסקי נוכחי", -100)]
    ∧ (-100 : ℚ) < 0
    ∧ (extract_account negSeveranceAccount []).severanceTotal = -100
    ∧ (extract_account negSeveranceAccount []).componentTotal = -100
    ∧ (extract_account negSeveranceAccount []).startDate = ""
    ∧ (extract_account negSeveranceAccount []).productType = ""
    ∧ decide ((extract_account negSeveranceAccount []).startDate = "לא ידוע") = false
    ∧ decide ((extract_account negSeveranceAccount []).productType = "לא ידוע") = false := by
  decide

/-- Claim C9 (amended): the resolved balance is always non-negative, the
identity and balance-date fields are always present and nonempty
(defaulting to the unknown sentinel), and decomposition amounts are
emitted only when nonzero - but emitted amounts may be negative when the
document reports negative raw values, and the start-date and
product-type fields, while always present, default to the empty string
rather than the unknown sentinel (demonstrated by the counterexample). -/
theorem claim9_amended_invariants (acct : Node) (ancestors : List Node) :
    0 ≤ (extract_account acct ancestors).balance
    ∧ decide ((extract_account acct ancestors).accNumber = "") = false
    ∧ decide ((extract_account acct ancestors).plan = "") = false
    ∧ decide ((extract_account acct ancestors).company = "") = false
    ∧ decide ((extract_account acct ancestors).balanceDateOut = "") = false
    ∧ ((extract_account acct ancestors).severanceComponents.all
        (fun q => decide (q.2 ≠ 0))) = true
    ∧ ((extract_account acct ancestors).tagmulPeriods.all
        (fun q => decide (q.2 ≠ 0))) = true := by
  refine ⟨?_, ?_, ?_, ?_, ?_, ?_, ?_⟩
  · exact find_balance_nonneg acct
  · exact decide_eq_false (firstTruthy_ne _ _ (by decide))
  · exact decide_eq_false (firstTruthy_ne _ _ (by decide))
  · exact decide_eq_false (firstTruthy_ne _ _ (by decide))
  · exact decide_eq_false (ifEmptyDefault_ne _ _ (by decide))
  · exact severance_components_nonzero _
  · exact tagmul_periods_nonzero acct

/-- Claim C10: for every account element, the balance resolver returns a
non-negative value (tiers 1-3 only return totals above tolerance or an
exact 0, tiers 4-5 only accept strictly positive values, and the final
fallback is 0). -/
theorem claim10_balance_nonneg (acc : Node) : 0 ≤ find_balance acc :=
  find_balance_nonneg acc

end Mislaka
